import Mathlib

/-!
# OMNI-Operator — verification of the orchestration-core specification

Shallow embedding of the sandbox startup script
(`backend/sandbox/docker/start_browser.sh`), the dashboard submit handler,
the share-page metadata generator (`generateMetadata`), the custom model
dialog (`custom-model-dialog.tsx`), and — modelled from the specification
where the repository ships no source — the SandboxPool / JobQueueConsumer /
RunExecutor orchestration core.
-/

namespace StartBrowser

/-- Outcome of one liveness request to `http://localhost:8003/api`:
either no HTTP response was obtained (connection refused, timeout — curl
exits non-zero) or an HTTP response with the given status code arrived
(curl without `-f` exits zero). -/
inductive HealthOutcome where
  | noResponse
  | response (status : Nat)
  deriving DecidableEq, Repr

/-- Exit success of `curl -s http://localhost:8003/api > /dev/null` as
written in the script: without `--fail`, curl exits 0 whenever an HTTP
response is received, regardless of the status code. -/
def curlOk : HealthOutcome → Bool
  | .noResponse => false
  | .response _ => true

/-- Whether the endpoint returned a 2xx (success-class) HTTP response. -/
def is2xx : HealthOutcome → Bool
  | .noResponse => false
  | .response s => decide (200 ≤ s) && decide (s < 300)

/-- Observable events of the startup script's poll loop. -/
inductive Event where
  | healthAttempt (ok : Bool)
  | preWarm (ok : Bool)
  deriving DecidableEq, Repr

/-- Terminal outcome of the startup script's poll loop. -/
inductive LoopResult where
  | ready (preWarmOk : Bool)
  | timedOut
  deriving DecidableEq, Repr

/-- The `for i in {1..30}` health-poll loop of `start_browser.sh`:
attempt `i` runs `curl -s .../api`; on success the script pre-warms the
browser (`curl -X POST .../navigate_to -d '{"url": "about:blank"}' || true`,
outcome `preWarmOk` absorbed by `|| true`) and `break`s; on failure it
sleeps one second and retries.  `health i` is the outcome of the liveness
request at attempt `i`; `fuel` is the number of attempts remaining. -/
def pollLoop (health : Nat → HealthOutcome) (preWarmOk : Bool) :
    Nat → Nat → List Event × LoopResult
  | 0, _ => ([], .timedOut)
  | fuel + 1, i =>
    if curlOk (health i) then
      ([.healthAttempt true, .preWarm preWarmOk], .ready preWarmOk)
    else
      let rest := pollLoop health preWarmOk fuel (i + 1)
      (.healthAttempt false :: rest.1, rest.2)

/-- The script's loop bound: `{1..30}`. -/
def scriptMaxAttempts : Nat := 30

/-- The script's retry interval in seconds: `sleep 1`. -/
def scriptIntervalSeconds : Nat := 1

/-- The whole startup sequence after launching `browser_api.py`: 30
attempts starting at attempt index 1. -/
def startBrowserMain (health : Nat → HealthOutcome) (preWarmOk : Bool) :
    List Event × LoopResult :=
  pollLoop health preWarmOk scriptMaxAttempts 1

/-- Holds (`true`) while no pre-warm event may legally appear: scans the trace and
fails if a pre-warm occurs before the first successful health attempt. -/
def preWarmAfterHealth : List Event → Bool
  | [] => true
  | .healthAttempt true :: _ => true
  | .healthAttempt false :: rest => preWarmAfterHealth rest
  | .preWarm _ :: _ => false

theorem pollLoop_ready (health : Nat → HealthOutcome) (preWarmOk : Bool) :
    ∀ (fuel i : Nat), (∃ j, j < fuel ∧ curlOk (health (i + j)) = true) →
      (pollLoop health preWarmOk fuel i).2 = .ready preWarmOk := by
  intro fuel
  induction fuel with
  | zero => intro i ⟨j, hj, _⟩; exact absurd hj (Nat.not_lt_zero j)
  | succ n ih =>
    intro i ⟨j, hj, hok⟩
    by_cases hcur : curlOk (health i) = true
    · simp [pollLoop, hcur]
    · have hj0 : j ≠ 0 := by
        intro h0; rw [h0, Nat.add_zero] at hok; exact hcur hok
      obtain ⟨j', rfl⟩ := Nat.exists_eq_succ_of_ne_zero hj0
      have : curlOk (health (i + 1 + j')) = true := by
        rw [Nat.add_right_comm]; exact hok
      simp only [pollLoop, hcur, if_false]
      exact ih (i + 1) ⟨j', Nat.lt_of_succ_lt_succ hj, this⟩

theorem pollLoop_timeout (health : Nat → HealthOutcome) (preWarmOk : Bool) :
    ∀ (fuel i : Nat), (∀ j, j < fuel → curlOk (health (i + j)) = false) →
      (pollLoop health preWarmOk fuel i).2 = .timedOut := by
  intro fuel
  induction fuel with
  | zero => intro i _; rfl
  | succ n ih =>
    intro i hall
    have h0 : curlOk (health i) = false := by
      have := hall 0 (Nat.succ_pos n); rwa [Nat.add_zero] at this
    simp only [pollLoop, h0, Bool.false_eq_true, if_false]
    exact ih (i + 1) fun j hj => by
      have := hall (j + 1) (Nat.succ_lt_succ hj)
      rwa [show i + (j + 1) = i + 1 + j by omega] at this

theorem pollLoop_trace_safe (health : Nat → HealthOutcome) (preWarmOk : Bool) :
    ∀ (fuel i : Nat),
      preWarmAfterHealth (pollLoop health preWarmOk fuel i).1 = true := by
  intro fuel
  induction fuel with
  | zero => intro i; rfl
  | succ n ih =>
    intro i
    by_cases hcur : curlOk (health i) = true
    · simp [pollLoop, hcur, preWarmAfterHealth]
    · simp only [pollLoop, hcur, Bool.false_eq_true, if_false]
      exact ih (i + 1)

/-- Claim C1. Pre-warm failure never blocks readiness: whenever some health
attempt within the 30-attempt budget succeeds, the startup sequence ends
in the `ready` outcome for both values of the pre-warm outcome — in
particular a failed pre-warm (`preWarmOk = false`, absorbed by `|| true`)
still yields `ready`. -/
theorem preWarm_failure_never_blocks_ready
    (health : Nat → HealthOutcome) (preWarmOk : Bool) (j : Nat)
    (hj : j < scriptMaxAttempts) (hok : curlOk (health (1 + j)) = true) :
    (startBrowserMain health preWarmOk).2 = LoopResult.ready preWarmOk :=
  pollLoop_ready health preWarmOk scriptMaxAttempts 1 ⟨j, hj, hok⟩

/-- Witness for C1: all liveness probes answer HTTP 200 but the pre-warm
request fails; the script still reaches `ready`. -/
theorem preWarm_failure_never_blocks_ready_witness :
    (startBrowserMain (fun _ => HealthOutcome.response 200) false).2 =
      LoopResult.ready false :=
  preWarm_failure_never_blocks_ready (fun _ => HealthOutcome.response 200)
    false 0 (by decide) (by decide)

/-- Claim C4. The pre-warm request is issued only after a health attempt has
succeeded: in every trace of the startup sequence, no `preWarm` event
precedes the first successful `healthAttempt`. -/
theorem preWarm_only_after_health (health : Nat → HealthOutcome)
    (preWarmOk : Bool) :
    preWarmAfterHealth (startBrowserMain health preWarmOk).1 = true :=
  pollLoop_trace_safe health preWarmOk scriptMaxAttempts 1

theorem pollLoop_ready_of_timedOut_false (health : Nat → HealthOutcome)
    (preWarmOk : Bool) :
    ∀ (fuel i : Nat), (pollLoop health preWarmOk fuel i).2 ≠ .timedOut →
      ∃ j, j < fuel ∧ curlOk (health (i + j)) = true := by
  intro fuel
  induction fuel with
  | zero => intro i h; exact absurd rfl h
  | succ n ih =>
    intro i h
    by_cases hcur : curlOk (health i) = true
    · exact ⟨0, Nat.succ_pos n, by rwa [Nat.add_zero]⟩
    · simp only [pollLoop, hcur, Bool.false_eq_true, if_false] at h
      obtain ⟨j, hj, hok⟩ := ih (i + 1) h
      exact ⟨j + 1, Nat.succ_lt_succ hj,
        by rwa [show i + (j + 1) = i + 1 + j by omega]⟩

/-- Claim C3, counterexample. A non-2xx response (HTTP 500) received at every
attempt: `curl -s` without `--fail` exits 0, so the attempt counts as a
health confirmation and the loop reaches `ready`, although the response is
not 2xx — the claimed "confirmation iff 2xx" equivalence is false. -/
theorem health_confirmation_not_iff_2xx :
    curlOk (HealthOutcome.response 500) = true ∧
      is2xx (HealthOutcome.response 500) = false ∧
      (startBrowserMain (fun _ => HealthOutcome.response 500) true).2 =
        LoopResult.ready true := by
  refine ⟨rfl, rfl, ?_⟩
  exact pollLoop_ready (fun _ => HealthOutcome.response 500) true
    scriptMaxAttempts 1 ⟨0, by decide, rfl⟩

/-- Claim C3, amended. A poll attempt counts as a health confirmation if
and only if the endpoint returns *any* HTTP response (the `curl -s` call
exits 0), regardless of status class; every 2xx response confirms, but so
does every non-2xx response.  Accordingly the loop escapes `timedOut`
exactly when some attempt within the budget received any response. -/
theorem health_confirmation_iff_any_response :
    (∀ o : HealthOutcome, curlOk o = true ↔ o ≠ HealthOutcome.noResponse) ∧
      (∀ o : HealthOutcome, is2xx o = true → curlOk o = true) ∧
      (∀ (health : Nat → HealthOutcome) (preWarmOk : Bool),
        (startBrowserMain health preWarmOk).2 ≠ LoopResult.timedOut ↔
          ∃ j, j < scriptMaxAttempts ∧
            health (1 + j) ≠ HealthOutcome.noResponse) := by
  have hcurl : ∀ o : HealthOutcome, curlOk o = true ↔ o ≠ .noResponse := by
    intro o; cases o <;> simp [curlOk]
  refine ⟨hcurl, ?_, ?_⟩
  · intro o h2; cases o with
    | noResponse => exact absurd h2 (by simp [is2xx])
    | response s => rfl
  · intro health preWarmOk
    constructor
    · intro h
      obtain ⟨j, hj, hok⟩ :=
        pollLoop_ready_of_timedOut_false health preWarmOk scriptMaxAttempts 1 h
      exact ⟨j, hj, (hcurl _).mp hok⟩
    · rintro ⟨j, hj, hne⟩ habs
      have : (startBrowserMain health preWarmOk).2 = .ready preWarmOk :=
        pollLoop_ready health preWarmOk scriptMaxAttempts 1
          ⟨j, hj, (hcurl _).mpr hne⟩
      rw [habs] at this
      exact LoopResult.noConfusion this

/-- Witness for the amended C3: with every probe answering HTTP 404, the
loop still confirms health (no timeout). -/
theorem health_confirmation_iff_any_response_witness :
    (startBrowserMain (fun _ => HealthOutcome.response 404) true).2 ≠
      LoopResult.timedOut :=
  (health_confirmation_iff_any_response.2.2
    (fun _ => HealthOutcome.response 404) true).mpr
    ⟨0, by decide, by decide⟩

end StartBrowser

namespace Orchestrator

/-- Modelled from the spec: the failure taxonomy of §7 — `LaunchError`, `HealthCheckTimeout`,
`PoolExhausted`, `SandboxLost`, `ExecutionFault`, `NotReady`. -/
inductive FailReason where
  | launchError
  | healthCheckTimeout
  | poolExhausted
  | sandboxLost
  | executionFault
  | notReady
  deriving DecidableEq, Repr

/-- Modelled from the spec: lifecycle states of a `SandboxProcess` — §4.1 lists
`Starting → HealthPolling → PreWarming → Ready → InUse → Draining →
Terminated`, with `Failed` reachable from any non-terminal state; the
repository ships only the startup script, not the SandboxProcess class. -/
inductive SandboxState where
  | starting
  | healthPolling
  | preWarming
  | ready
  | inUse
  | draining
  | terminated
  | failed (reason : FailReason)
  deriving DecidableEq, Repr

/-- Modelled from the spec: `SandboxProcess.waitReady(maxAttempts,
interval)` — the bounded-retry generalization (§4.1, §9) of the script's
health-poll loop.  `health i` is the result of the liveness probe at
attempt `i` (probes are spaced one fixed interval apart); `fuel` counts
attempts remaining and `made` attempts already made.  The first successful
attempt confirms `HealthPolling`; if no attempt succeeds the process
transitions to `Failed HealthCheckTimeout`.  Returns the final state and
the number of attempts made. -/
def waitReadyAux (health : Nat → Bool) : Nat → Nat → SandboxState × Nat
  | 0, made => (.failed .healthCheckTimeout, made)
  | fuel + 1, made =>
    if health made then (.healthPolling, made + 1)
    else waitReadyAux health fuel (made + 1)

/-- Modelled from the spec: entry point of `waitReady` with a fresh
attempt counter (the script instantiates `maxAttempts := 30`,
`interval := 1` second). -/
def waitReady (health : Nat → Bool) (maxAttempts : Nat) :
    SandboxState × Nat :=
  waitReadyAux health maxAttempts 0

theorem waitReadyAux_le (health : Nat → Bool) :
    ∀ (fuel made : Nat), (waitReadyAux health fuel made).2 ≤ made + fuel := by
  intro fuel
  induction fuel with
  | zero => intro made; exact Nat.le_refl made
  | succ n ih =>
    intro made
    by_cases h : health made = true
    · simp only [waitReadyAux, h, if_true]; omega
    · simp only [waitReadyAux, h, Bool.false_eq_true, if_false]
      have := ih (made + 1); omega

theorem waitReadyAux_timeout (health : Nat → Bool) :
    ∀ (fuel made : Nat), (∀ i, made ≤ i → i < made + fuel → health i = false) →
      waitReadyAux health fuel made = (.failed .healthCheckTimeout, made + fuel) := by
  intro fuel
  induction fuel with
  | zero => intro made _; rfl
  | succ n ih =>
    intro made hall
    have h0 : health made = false := hall made (Nat.le_refl _) (by omega)
    simp only [waitReadyAux, h0, Bool.false_eq_true, if_false]
    rw [ih (made + 1) fun i h1 h2 => hall i (by omega) (by omega)]
    congr 1
    omega

theorem waitReadyAux_first_success (health : Nat → Bool) :
    ∀ (fuel made k : Nat), k < fuel →
      (∀ i, made ≤ i → i < made + k → health i = false) →
      health (made + k) = true →
      waitReadyAux health fuel made = (.healthPolling, made + k + 1) := by
  intro fuel
  induction fuel with
  | zero => intro made k hk; exact absurd hk (Nat.not_lt_zero k)
  | succ n ih =>
    intro made k hk hfail hsucc
    by_cases hk0 : k = 0
    · subst hk0
      rw [Nat.add_zero] at hsucc
      simp [waitReadyAux, hsucc]
    · have h0 : health made = false := hfail made (Nat.le_refl _) (by omega)
      simp only [waitReadyAux, h0, Bool.false_eq_true, if_false]
      obtain ⟨k', rfl⟩ := Nat.exists_eq_succ_of_ne_zero hk0
      have := ih (made + 1) k' (by omega)
        (fun i h1 h2 => hfail i (by omega) (by omega))
        (by rwa [show made + 1 + k' = made + (k' + 1) by omega])
      rw [this]
      congr 1
      omega

/-- Claim C2. Function `waitReady` makes at most `maxAttempts` liveness polls; a
failed attempt is a silent retry (an attempt-`k` success after `k`
failures still confirms `HealthPolling`); and if every attempt fails the
sandbox transitions to `Failed HealthCheckTimeout` after exactly
`maxAttempts` polls — it never proceeds as if healthy.  The script
instantiates `maxAttempts = 30` with a 1-second interval. -/
theorem waitReady_bounded_retry (health : Nat → Bool) (maxAttempts : Nat) :
    (waitReady health maxAttempts).2 ≤ maxAttempts ∧
      ((∀ i, i < maxAttempts → health i = false) →
        waitReady health maxAttempts =
          (SandboxState.failed FailReason.healthCheckTimeout, maxAttempts)) ∧
      (∀ k, k < maxAttempts → (∀ i, i < k → health i = false) →
        health k = true →
        waitReady health maxAttempts = (SandboxState.healthPolling, k + 1)) ∧
      StartBrowser.scriptMaxAttempts = 30 ∧
      StartBrowser.scriptIntervalSeconds = 1 := by
  refine ⟨?_, ?_, ?_, rfl, rfl⟩
  · have := waitReadyAux_le health maxAttempts 0
    simpa [waitReady] using this
  · intro hall
    have := waitReadyAux_timeout health maxAttempts 0
      (fun i _ h2 => hall i (by omega))
    simpa [waitReady] using this
  · intro k hk hfail hsucc
    have := waitReadyAux_first_success health maxAttempts 0 k hk
      (fun i _ h2 => hfail i (by omega)) (by simpa using hsucc)
    simpa [waitReady] using this

/-- Witness for C2: with the 30-attempt budget and the first success at
attempt index 4 (attempts 0–3 failing silently), `waitReady` confirms
health after 5 polls; and with every attempt failing it times out. -/
theorem waitReady_bounded_retry_witness :
    waitReady (fun i => decide (i = 4)) 30 = (SandboxState.healthPolling, 5) ∧
      waitReady (fun _ => false) 30 =
        (SandboxState.failed FailReason.healthCheckTimeout, 30) :=
  ⟨(waitReady_bounded_retry (fun i => decide (i = 4)) 30).2.2.1 4 (by decide)
      (fun i hi => decide_eq_false (by omega)) (by decide),
    (waitReady_bounded_retry (fun _ => false) 30).2.1 (fun i _ => rfl)⟩

/-- Modelled from the spec: the SandboxPool's shared mutable state (§4.2,
§5) — the identifiers of `Ready` sandboxes available for hand-out, and an
association of `InUse` sandbox identifiers to the RunExecutor currently
holding them.  The repository ships no pool source, only the deployment
topology. -/
structure PoolCfg where
  readySet : List Nat
  owner : List (Nat × Nat)
  deriving DecidableEq, Repr

/-- Modelled from the spec: the identifiers of sandboxes currently held by
some RunExecutor. -/
def PoolCfg.heldIds (c : PoolCfg) : List Nat := c.owner.map Prod.fst

/-- Modelled from the spec: the pool operations serialized through the
pool's critical section — a replacement/creation completing into `Ready`,
`acquireSandbox` handing a `Ready` sandbox to an executor, and
`releaseSandbox(id, healthy)` returning it (`Ready` again if healthy,
removed from the pool otherwise). -/
inductive PoolEvent where
  | create (sid : Nat)
  | acquire (execId sid : Nat)
  | release (execId sid : Nat) (healthy : Bool)
  deriving DecidableEq, Repr

/-- Modelled from the spec: one serialized pool transition.  `none` means
the transition is not enabled in this state (`acquire` of a non-`Ready`
sandbox fails with `NotReady`, a release by a non-holder is a contract
violation, a created identifier must be fresh). -/
def step (c : PoolCfg) : PoolEvent → Option PoolCfg
  | .create sid =>
    if sid ∈ c.readySet ∨ sid ∈ c.heldIds then none
    else some { c with readySet := sid :: c.readySet }
  | .acquire e sid =>
    if sid ∈ c.readySet then
      some { readySet := c.readySet.erase sid, owner := (sid, e) :: c.owner }
    else none
  | .release e sid healthy =>
    if (sid, e) ∈ c.owner then
      some { readySet := if healthy then sid :: c.readySet else c.readySet,
             owner := c.owner.eraseP (fun p => p.1 == sid) }
    else none

/-- Modelled from the spec: a sequence of serialized pool transitions;
`none` when some transition along the way is not enabled. -/
def run : PoolCfg → List PoolEvent → Option PoolCfg
  | c, [] => some c
  | c, ev :: l =>
    match step c ev with
    | some c2 => run c2 l
    | none => none

/-- Modelled from the spec: the pool's initial state — no sandboxes yet. -/
def initPool : PoolCfg := ⟨[], []⟩

/-- Pool state invariant: ready identifiers are distinct, held identifiers
are distinct, and no identifier is simultaneously ready and held. -/
def PoolInv (c : PoolCfg) : Prop :=
  c.readySet.Nodup ∧ c.heldIds.Nodup ∧ ∀ sid ∈ c.readySet, sid ∉ c.heldIds

theorem heldIds_eraseP_sublist (l : List (Nat × Nat)) (sid : Nat) :
    List.Sublist ((l.eraseP (fun p => p.1 == sid)).map Prod.fst)
      (l.map Prod.fst) :=
  (List.eraseP_sublist l).map Prod.fst

theorem key_not_mem_eraseP :
    ∀ (l : List (Nat × Nat)) (sid : Nat), (l.map Prod.fst).Nodup →
      sid ∉ (l.eraseP (fun p => p.1 == sid)).map Prod.fst := by
  intro l
  induction l with
  | nil => intro sid _ h; exact (List.not_mem_nil sid) h
  | cons hd tl ih =>
    intro sid hnod
    rw [List.map_cons, List.nodup_cons] at hnod
    by_cases hk : hd.1 = sid
    · have hp : (fun p : Nat × Nat => p.1 == sid) hd = true := by
        simp [hk]
      simp only [List.eraseP_cons, hp, cond_true]
      exact hk ▸ hnod.1
    · have hp : (fun p : Nat × Nat => p.1 == sid) hd = false := by
        simp [hk]
      simp only [List.eraseP_cons, hp, cond_false, List.map_cons,
        List.mem_cons]
      rintro (rfl | hmem)
      · exact hk rfl
      · exact ih sid hnod.2 hmem

theorem assoc_key_unique :
    ∀ (l : List (Nat × Nat)), (l.map Prod.fst).Nodup →
      ∀ sid e1 e2, (sid, e1) ∈ l → (sid, e2) ∈ l → e1 = e2 := by
  intro l
  induction l with
  | nil => intro _ sid e1 e2 h1; exact absurd h1 (List.not_mem_nil _)
  | cons hd tl ih =>
    intro hnod sid e1 e2 h1 h2
    rw [List.map_cons, List.nodup_cons] at hnod
    rcases List.mem_cons.mp h1 with rfl | h1'
    · rcases List.mem_cons.mp h2 with heq | h2'
      · exact congrArg Prod.snd heq.symm
      · exact absurd (List.mem_map_of_mem Prod.fst h2') hnod.1
    · rcases List.mem_cons.mp h2 with rfl | h2'
      · exact absurd (List.mem_map_of_mem Prod.fst h1') hnod.1
      · exact ih hnod.2 sid e1 e2 h1' h2'

theorem step_preserves_inv {c c' : PoolCfg} {ev : PoolEvent}
    (hstep : step c ev = some c') (hinv : PoolInv c) : PoolInv c' := by
  obtain ⟨hr, hh, hdisj⟩ := hinv
  cases ev with
  | create sid =>
    by_cases hg : sid ∈ c.readySet ∨ sid ∈ c.heldIds
    · simp [step, hg] at hstep
    · simp only [step, hg, if_true, if_false, Option.some.injEq] at hstep
      subst hstep
      push_neg at hg
      refine ⟨List.nodup_cons.mpr ⟨hg.1, hr⟩, hh, ?_⟩
      intro x hx
      rcases List.mem_cons.mp hx with rfl | hx'
      · exact hg.2
      · exact hdisj x hx'
  | acquire e sid =>
    by_cases hg : sid ∈ c.readySet
    · simp only [step, hg, if_true, Option.some.injEq] at hstep
      subst hstep
      refine ⟨hr.erase sid, ?_, ?_⟩
      · exact List.nodup_cons.mpr ⟨hdisj sid hg, hh⟩
      · intro x hx
        have hx' := (hr.mem_erase_iff).mp hx
        simp only [PoolCfg.heldIds, List.map_cons, List.mem_cons]
        rintro (rfl | hmem)
        · exact hx'.1 rfl
        · exact hdisj x hx'.2 hmem
    · simp [step, hg] at hstep
  | release e sid healthy =>
    by_cases hg : (sid, e) ∈ c.owner
    · simp only [step, hg, if_true, Option.some.injEq] at hstep
      subst hstep
      have hsubl := heldIds_eraseP_sublist c.owner sid
      have hsid_held : sid ∈ c.heldIds := List.mem_map_of_mem Prod.fst hg
      have hsid_not_ready : sid ∉ c.readySet := fun hcon =>
        hdisj sid hcon hsid_held
      refine ⟨?_, hh.sublist hsubl, ?_⟩
      · cases healthy with
        | true => exact List.nodup_cons.mpr ⟨hsid_not_ready, hr⟩
        | false => exact hr
      · intro x hx
        cases healthy with
        | true =>
          rcases List.mem_cons.mp hx with rfl | hx'
          · exact key_not_mem_eraseP c.owner x hh
          · exact fun hcon => hdisj x hx' (hsubl.mem hcon)
        | false => exact fun hcon => hdisj x hx (hsubl.mem hcon)
    · simp [step, hg] at hstep

theorem run_preserves_inv :
    ∀ (l : List PoolEvent) (c c' : PoolCfg), run c l = some c' →
      PoolInv c → PoolInv c' := by
  intro l
  induction l with
  | nil =>
    intro c c' hrun hinv
    simp only [run, Option.some.injEq] at hrun
    exact hrun ▸ hinv
  | cons ev l ih =>
    intro c c' hrun hinv
    simp only [run] at hrun
    cases hstep : step c ev with
    | none => rw [hstep] at hrun; exact absurd hrun (by simp)
    | some c2 =>
      rw [hstep] at hrun
      exact ih c2 c' hrun (step_preserves_inv hstep hinv)

/-- Claim C5. For every sequence of pool transitions (sandbox creation,
`acquireSandbox`, `releaseSandbox`) executable from the initial pool, each
sandbox identifier is held by at most one RunExecutor in the resulting
state: two ownership records for the same identifier name the same
executor.  Since every reachable state is the final state of such a
sequence, the pool never hands the same sandbox to two concurrent
owners. -/
theorem pool_at_most_one_owner (l : List PoolEvent) (c : PoolCfg)
    (sid e1 e2 : Nat) (hrun : run initPool l = some c)
    (h1 : (sid, e1) ∈ c.owner) (h2 : (sid, e2) ∈ c.owner) : e1 = e2 := by
  have hinv : PoolInv c :=
    run_preserves_inv l initPool c hrun
      ⟨List.nodup_nil, List.nodup_nil, by intro x hx; exact absurd hx (List.not_mem_nil x)⟩
  exact assoc_key_unique c.owner hinv.2.1 sid e1 e2 h1 h2

/-- Witness for C5: the pool creates sandbox `0`, executor `7` acquires
it; in the resulting state sandbox `0`'s two (identical) ownership records
agree. -/
theorem pool_at_most_one_owner_witness : (7 : Nat) = 7 :=
  pool_at_most_one_owner
    [PoolEvent.create 0, PoolEvent.acquire 7 0] ⟨[], [(0, 7)]⟩ 0 7 7
    (by decide) (by decide) (by decide)

/-- Modelled from the spec: a queued agent-run job — queue ingress
messages carry `run_id`, an opaque payload, and a delivery attempt count
(§3, §6). -/
structure Job where
  runId : String
  payload : String
  attempt : Nat
  deriving DecidableEq, Repr

/-- Modelled from the spec: the disposition of one queue delivery by the consumer (§4.3). -/
inductive Disposition where
  | dispatched
  | duplicateAck
  deriving DecidableEq, Repr

/-- Modelled from the spec: JobQueueConsumer receive-loop state (§4.3) —
the in-memory set of in-flight run identifiers and the executions created
so far.  The repository ships no consumer source, only the worker
deployment entry. -/
structure ConsumerState where
  inFlight : List String
  executions : List Job
  deriving DecidableEq, Repr

/-- Modelled from the spec: handling of one queue delivery (§4.3) — the
run identifier is checked against the in-flight set; if already in flight
the delivery is acknowledged immediately and discarded; otherwise the
identifier is recorded and a new execution dispatched. -/
def receive (s : ConsumerState) (j : Job) : ConsumerState × Disposition :=
  if j.runId ∈ s.inFlight then (s, .duplicateAck)
  else ({ inFlight := j.runId :: s.inFlight, executions := j :: s.executions },
    .dispatched)

/-- Claim C6. Run-identifier idempotency: a delivery whose `run_id` is
already in flight leaves the consumer state unchanged and is acknowledged
as a discarded duplicate; in particular, redelivering any job right after
it was processed once yields exactly the state after processing it once —
no second execution is created. -/
theorem receive_idempotent (s : ConsumerState) (j : Job) :
    (j.runId ∈ s.inFlight → receive s j = (s, Disposition.duplicateAck)) ∧
      receive (receive s j).1 j = ((receive s j).1, Disposition.duplicateAck) := by
  constructor
  · intro hmem
    simp [receive, hmem]
  · by_cases hmem : j.runId ∈ s.inFlight
    · simp [receive, hmem]
    · simp [receive, hmem]

/-- Witness for C6: processing job `42` once and redelivering it leaves
the state unchanged and acknowledges the duplicate. -/
theorem receive_idempotent_witness :
    receive
        (receive ⟨[], []⟩ ⟨"42", "payload", 1⟩).1 ⟨"42", "payload", 1⟩ =
      ((receive ⟨[], []⟩ ⟨"42", "payload", 1⟩).1, Disposition.duplicateAck) :=
  (receive_idempotent ⟨[], []⟩ ⟨"42", "payload", 1⟩).2

/-- Modelled from the spec: `acquireSandbox(timeout)` (§4.2) as observed
at the moment the timeout elapses — a `Ready` sandbox is returned if one
exists; otherwise (no sandbox became ready within the timeout) the call
fails with `PoolExhausted`. -/
def acquireSandbox (c : PoolCfg) : Except FailReason Nat :=
  match c.readySet with
  | [] => .error .poolExhausted
  | sid :: _ => .ok sid

/-- Modelled from the spec: the outcome of the RunExecutor's acquisition
phase together with the consumer's queue action for the job (§4.3, §4.4). -/
inductive DispatchResult where
  | bound (sid : Nat)
  | requeued (j : Job)
  | ackedDone
  | dropped
  deriving DecidableEq, Repr

/-- Modelled from the spec: `Acquiring` phase of RunExecutor (§4.4) under
the acknowledgment policy of §4.3 — `PoolExhausted` sends the run to
`Requeued` and the job is explicitly requeued with an incremented attempt
count rather than acknowledged or dropped. -/
def dispatch (c : PoolCfg) (j : Job) : DispatchResult :=
  match acquireSandbox c with
  | .ok sid => .bound sid
  | .error _ => .requeued { j with attempt := j.attempt + 1 }

/-- Claim C7. When no sandbox is `Ready` as the acquisition timeout elapses,
`acquireSandbox` fails with `PoolExhausted` and the job is requeued with
its attempt count incremented by one — it is neither acknowledged as done
nor silently dropped. -/
theorem poolExhausted_requeues_with_incremented_attempt
    (c : PoolCfg) (j : Job) (hempty : c.readySet = []) :
    acquireSandbox c = Except.error FailReason.poolExhausted ∧
      dispatch c j =
        DispatchResult.requeued { j with attempt := j.attempt + 1 } ∧
      dispatch c j ≠ DispatchResult.ackedDone ∧
      dispatch c j ≠ DispatchResult.dropped := by
  have hacq : acquireSandbox c = Except.error FailReason.poolExhausted := by
    simp [acquireSandbox, hempty]
  refine ⟨hacq, ?_, ?_, ?_⟩ <;> simp [dispatch, hacq]

/-- Witness for C7 (the spec's scenario): job `42` on attempt 1 meets an
exhausted pool and is requeued with attempt 2. -/
theorem poolExhausted_requeues_witness :
    dispatch ⟨[], [(3, 9)]⟩ ⟨"42", "payload", 1⟩ =
      DispatchResult.requeued ⟨"42", "payload", 2⟩ :=
  (poolExhausted_requeues_with_incremented_attempt
    ⟨[], [(3, 9)]⟩ ⟨"42", "payload", 1⟩ rfl).2.1

end Orchestrator

/-- JavaScript `String.prototype.trim` as used by the front-end guards:
strips leading and trailing whitespace. -/
def jsTrim (s : String) : String :=
  String.mk
    (((s.data.dropWhile Char.isWhitespace).reverse.dropWhile
      Char.isWhitespace).reverse)

namespace Dashboard

/-- Outcome of the `initiateAgentMutation.mutateAsync` call as observed by
`handleSubmit`: a result carrying an optional `thread_id`, a
`BillingError`, or any other thrown error. -/
inductive SubmitOutcome where
  | ok (threadId : Option String)
  | billingError
  | otherError
  deriving DecidableEq, Repr

/-- Observable effect of one `handleSubmit` call from the dashboard page:
the `isSubmitting` flag after the call returns, whether an agent run was
initiated (`mutateAsync` called), and the route navigated to (if any).

The source guard is
`if ((!message.trim() && !chatInputRef.current?.getPendingFiles().length) || isSubmitting) return;`
after which the handler sets `isSubmitting` to true, builds the form data,
awaits the mutation, navigates to `/agents/threadId` when a `thread_id`
is returned (throwing otherwise), handles `BillingError` in the catch, and
resets `isSubmitting` to false in the `finally` block. -/
def handleSubmit (isSubmitting : Bool) (message : String)
    (pendingFiles : Nat) (outcome : SubmitOutcome) :
    Bool × Bool × Option String :=
  if (jsTrim message == "" && pendingFiles == 0) || isSubmitting then
    (isSubmitting, false, none)
  else
    match outcome with
    | .ok (some tid) => (false, true, some ("/agents/" ++ tid))
    | .ok none => (false, true, none)
    | .billingError => (false, true, none)
    | .otherError => (false, true, none)

/-- Claim C8. The dashboard submit handler admits at most one in-flight
submission and rejects blank input: if a prior submission is in flight
(`isSubmitting` is true), or the message trims to empty and no files are
pending, `handleSubmit` returns without initiating an agent run, without
navigating, and with the submission flag unchanged. -/
theorem handleSubmit_guard (isSubmitting : Bool) (message : String)
    (pendingFiles : Nat) (outcome : SubmitOutcome)
    (hguard : isSubmitting = true ∨ (jsTrim message = "" ∧ pendingFiles = 0)) :
    handleSubmit isSubmitting message pendingFiles outcome =
      (isSubmitting, false, none) := by
  rcases hguard with hsub | ⟨hmsg, hfiles⟩
  · subst hsub
    simp [handleSubmit]
  · subst hfiles
    simp [handleSubmit, hmsg]

/-- Witness for C8: a whitespace-only message with no pending files while
idle, and a real message while a submission is in flight, both return
without initiating a run or changing state. -/
theorem handleSubmit_guard_witness :
    handleSubmit false "   " 0 (SubmitOutcome.ok (some "t1")) =
        (false, false, none) ∧
      handleSubmit true "do the thing" 3 (SubmitOutcome.ok (some "t1")) =
        (true, false, none) :=
  ⟨handleSubmit_guard false "   " 0 (SubmitOutcome.ok (some "t1"))
      (Or.inr ⟨by decide, rfl⟩),
    handleSubmit_guard true "do the thing" 3 (SubmitOutcome.ok (some "t1"))
      (Or.inl rfl)⟩

end Dashboard

namespace ShareMeta

/-- Object `siteConfig` from `frontend/src/lib/site.ts`. -/
structure SiteConfig where
  name : String
  url : String
  description : String
  deriving DecidableEq, Repr

/-- The literal values of `site.ts` (fields used by the metadata code). -/
def siteConfig : SiteConfig :=
  { name := "OMNI Operator"
    url := "https://suna.so/"
    description := "OMNI Operator" }

/-- Thread record as consumed by `generateMetadata`: only `project_id` is
read. -/
structure Thread where
  project_id : String
  deriving DecidableEq, Repr

/-- Project record as consumed by `generateMetadata`: `name` and
`description` may be absent or empty (both falsy in the source). -/
structure Project where
  name : Option String
  description : Option String
  deriving DecidableEq, Repr

/-- The metadata fields produced by `generateMetadata` that the embedding
tracks. -/
structure PageMetadata where
  title : String
  description : String
  canonical : String
  ogTitle : String
  ogDescription : String
  siteName : String
  ogImages : List String
  deriving DecidableEq, Repr

/-- JavaScript `a || b` on an optional string: the default is used when
the value is absent or empty (falsy). -/
def jsStringOr (o : Option String) (d : String) : String :=
  match o with
  | none => d
  | some s => if s = "" then d else s

/-- JavaScript template interpolation of a possibly-absent string. -/
def jsInterp (o : Option String) : String := o.getD "undefined"

/-- The `fallbackMetaData` object of the share-page layout. -/
def fallbackMetaData (publicUrl threadId : String) : PageMetadata :=
  { title := "Shared Conversation | OMNI Operator"
    description := "Replay this Agent conversation on OMNI Operator"
    canonical := publicUrl ++ "/share/" ++ threadId
    ogTitle := "Shared Conversation | OMNI Operator"
    ogDescription := "Replay this Agent conversation on OMNI Operator"
    siteName := siteConfig.name
    ogImages := [] }

/-- Function `generateMetadata` of the share-page layout.  `getThread` and
`getProject` are the awaited fetches: `Except.error` models a thrown
error (caught by the `try`/`catch`, which returns the fallback) and
`Except.ok none` a null record — a null thread makes
`threadData.project_id` throw into the same catch, and a null project is
returned as fallback by the explicit `!threadData || !projectData`
guard. -/
def generateMetadata (publicUrl : String) (isDevelopment : Bool)
    (threadId : String) (getThread : Except Unit (Option Thread))
    (getProject : String → Except Unit (Option Project)) : PageMetadata :=
  let fallback := fallbackMetaData publicUrl threadId
  match getThread with
  | .error _ => fallback
  | .ok none => fallback
  | .ok (some threadData) =>
    match getProject threadData.project_id with
    | .error _ => fallback
    | .ok none => fallback
    | .ok (some projectData) =>
      let title :=
        jsStringOr projectData.name "Shared Conversation | OMNI Operator"
      let description :=
        jsStringOr projectData.description
          "Replay this Agent conversation on OMNI Operator"
      let ogImage :=
        if isDevelopment then publicUrl ++ "/share-page/og-fallback.png"
        else publicUrl ++ "/api/share-page/og-image?title=" ++
          jsInterp projectData.name
      { title := title
        description := description
        canonical := publicUrl ++ "/share/" ++ threadId
        ogTitle := title
        ogDescription := description
        siteName := siteConfig.name
        ogImages := [ogImage] }

/-- Claim C9. Function `generateMetadata` is total over fetch failures: if fetching
the thread throws or yields no thread, or fetching the project throws or
yields no project, the fallback metadata is returned rather than an error
propagated; and in every case — fallback or not — the canonical URL is
`publicUrl ++ "/share/" ++ threadId`. -/
theorem generateMetadata_total_and_canonical (publicUrl : String)
    (isDevelopment : Bool) (threadId : String)
    (getThread : Except Unit (Option Thread))
    (getProject : String → Except Unit (Option Project)) :
    ((∀ t, getThread ≠ Except.ok (some t)) →
        generateMetadata publicUrl isDevelopment threadId getThread
          getProject = fallbackMetaData publicUrl threadId) ∧
      (∀ t, getThread = Except.ok (some t) →
        (∀ p, getProject t.project_id ≠ Except.ok (some p)) →
        generateMetadata publicUrl isDevelopment threadId getThread
          getProject = fallbackMetaData publicUrl threadId) ∧
      (generateMetadata publicUrl isDevelopment threadId getThread
          getProject).canonical = publicUrl ++ "/share/" ++ threadId := by
  refine ⟨?_, ?_, ?_⟩
  · intro hne
    match hgt : getThread with
    | .error _ => simp [generateMetadata]
    | .ok none => simp [generateMetadata]
    | .ok (some t) => exact absurd rfl (hgt ▸ hne t)
  · rintro t rfl hnp
    match hgp : getProject t.project_id with
    | .error _ => simp [generateMetadata, hgp]
    | .ok none => simp [generateMetadata, hgp]
    | .ok (some p) => exact absurd rfl (hgp ▸ hnp p)
  · cases getThread with
    | error e => rfl
    | ok o =>
      cases o with
      | none => rfl
      | some t =>
        cases hgp : getProject t.project_id with
        | error e => simp [generateMetadata, hgp, fallbackMetaData]
        | ok o2 => cases o2 <;> simp [generateMetadata, hgp, fallbackMetaData]

/-- Witness for C9: a thrown thread fetch yields the fallback, and a
successful fetch pair yields metadata whose canonical URL is
`https://example.com/share/abc`. -/
theorem generateMetadata_total_and_canonical_witness :
    generateMetadata "https://example.com" false "abc" (Except.error ())
        (fun _ => Except.ok (some ⟨some "P", none⟩)) =
      fallbackMetaData "https://example.com" "abc" ∧
      (generateMetadata "https://example.com" false "abc"
          (Except.ok (some ⟨"p1"⟩))
          (fun _ => Except.ok (some ⟨some "P", none⟩))).canonical =
        "https://example.com" ++ "/share/" ++ "abc" :=
  ⟨(generateMetadata_total_and_canonical "https://example.com" false "abc"
      (Except.error ()) (fun _ => Except.ok (some ⟨some "P", none⟩))).1
      (fun t h => Except.noConfusion h),
    (generateMetadata_total_and_canonical "https://example.com" false "abc"
      (Except.ok (some ⟨"p1"⟩))
      (fun _ => Except.ok (some ⟨some "P", none⟩))).2.2⟩

end ShareMeta

namespace CustomModel

/-- Interface `CustomModelFormData` from `custom-model-dialog.tsx`. -/
structure CustomModelFormData where
  id : String
  label : String
  deriving DecidableEq, Repr

/-- Handler `handleSave` from `custom-model-dialog.tsx`: after stopping event
propagation it invokes `onSave(formData)` only when `formData.id.trim()`
is truthy (non-empty).  `some d` means `onSave` was invoked with `d`;
`none` means it was not. -/
def handleSave (formData : CustomModelFormData) :
    Option CustomModelFormData :=
  if jsTrim formData.id = "" then none else some formData

/-- The Save button's `disabled` prop: `!formData.id.trim()`. -/
def saveDisabled (formData : CustomModelFormData) : Bool :=
  jsTrim formData.id == ""

/-- Claim C10. The dialog never emits a blank model identifier: whenever
`handleSave` invokes `onSave`, the emitted form data is the current form
data and its trimmed id is non-empty; and for a blank id both guards
engage — the Save button is disabled and `handleSave` does not invoke
`onSave`. -/
theorem customModel_no_blank_id (formData : CustomModelFormData) :
    (∀ out, handleSave formData = some out →
        out = formData ∧ jsTrim out.id ≠ "") ∧
      (jsTrim formData.id = "" →
        saveDisabled formData = true ∧ handleSave formData = none) := by
  constructor
  · intro out hout
    by_cases hid : jsTrim formData.id = ""
    · simp [handleSave, hid] at hout
    · simp only [handleSave, hid, if_false, Option.some.injEq] at hout
      exact ⟨hout.symm, hout ▸ hid⟩
  · intro hid
    exact ⟨by simp [saveDisabled, hid], by simp [handleSave, hid]⟩

/-- Witness for C10: a whitespace-only id disables Save and suppresses
`onSave`; a non-blank id is emitted unchanged with a non-empty trim. -/
theorem customModel_no_blank_id_witness :
    (saveDisabled ⟨"   ", "lbl"⟩ = true ∧ handleSave ⟨"   ", "lbl"⟩ = none) ∧
      ((⟨"gpt", "lbl"⟩ : CustomModelFormData) = ⟨"gpt", "lbl"⟩ ∧
        jsTrim (CustomModelFormData.id ⟨"gpt", "lbl"⟩) ≠ "") :=
  ⟨(customModel_no_blank_id ⟨"   ", "lbl"⟩).2 (by decide),
    (customModel_no_blank_id ⟨"gpt", "lbl"⟩).1 ⟨"gpt", "lbl"⟩ (by decide)⟩

end CustomModel
